import Mathlib

/-!
Shallow embedding of `src/server.js` (an Express chat API over a JSON-file
store).  The mutable module state `db = { conversations, messages }` becomes an
explicit `DB` value threaded through each handler; `fs` writes become an
explicit `Option DB` disk value plus a `writeOk` flag (whether
`fs.writeFileSync` would throw); `new Date().toISOString()` timestamps become
`Nat` parameters supplied by the caller (ISO strings compare like their
instants); the OpenAI completion call becomes an `Except` parameter.
`parseInt` of a route parameter is modelled as `Option Int`: `none` stands for
`NaN`, which under JavaScript `===` compares unequal to every number.
JavaScript `Array.prototype.sort` is stable; it is modelled by a stable
insertion sort on the comparator key.
-/

namespace Server

/-- A row of `db.conversations` (see server.js lines 84-88). -/
structure Conversation where
  id : Int
  user_id : String
  created_at : Nat
deriving DecidableEq

/-- A row of `db.messages` (see server.js lines 93-99 and 120-126). -/
structure Message where
  id : Int
  conversation_id : Int
  role : String
  content : String
  timestamp : Nat
deriving DecidableEq

/-- The module-level store `db` of server.js lines 27-30. -/
structure DB where
  conversations : List Conversation
  messages : List Message
deriving DecidableEq

/-- The initial value of `db` (server.js lines 27-30): empty store. -/
def initialDB : DB := ⟨[], []⟩

/-- Models `x || 'anonymous'`-style defaulting: `undefined` and the empty
string are falsy in JavaScript, so both fall back to the default. -/
def jsOr (s : Option String) (dflt : String) : String :=
  match s with
  | none => dflt
  | some u => if u = "" then dflt else u

/-- Models `m.conversation_id === conversationId` where `conversationId` came
from `parseInt`: `none` is `NaN`, which `===`-matches no number. -/
def matchesParsed : Option Int → Int → Bool
  | none, _ => false
  | some n, x => n == x

/-- `generateId` (server.js lines 63-65):
`array.length > 0 ? Math.max(...array.map(item => item.id)) + 1 : 1`,
applied to the list of ids. -/
def generateId (ids : List Int) : Int :=
  match ids with
  | [] => 1
  | x :: xs => xs.foldl max x + 1

/-- `saveDB` (server.js lines 51-57): writes `db` to the file; a write error
is caught and only logged, never rethrown.  Returns the disk contents after
the call (`writeOk = false` models `fs.writeFileSync` throwing, leaving the
previous disk contents in place). -/
def saveDB (db : DB) (writeOk : Bool) (disk : Option DB) : Option DB :=
  if writeOk then some db else disk

/-- `loadDB` (server.js lines 33-48).  `file = none`: the snapshot file does
not exist, so the initial empty `db` is kept and saved; `some (.ok d)`: the
file parsed to `d`; `some (.error e)`: reading or `JSON.parse` threw, so the
catch block resets `db` to an empty store and calls `saveDB`.  Returns the
in-memory store and the disk contents after the call. -/
def loadDB (file : Option (Except String DB)) (writeOk : Bool)
    (disk : Option DB) : DB × Option DB :=
  match file with
  | none => (initialDB, saveDB initialDB writeOk disk)
  | some (Except.ok d) => (d, disk)
  | some (Except.error _) => (initialDB, saveDB initialDB writeOk disk)

/-- Stable insertion (by `timestamp` ascending) matching the stable
`sort((a, b) => new Date(a.timestamp) - new Date(b.timestamp))` of server.js
lines 105 and 155: an element is placed before the first element whose key is
not smaller, so elements with equal keys keep their original relative order. -/
def insertByTs (m : Message) : List Message → List Message
  | [] => [m]
  | x :: xs => if m.timestamp ≤ x.timestamp then m :: x :: xs else x :: insertByTs m xs

/-- Stable sort of messages by timestamp ascending (stable sorts by one key
agree on their output, so this insertion sort is the JavaScript sort). -/
def sortByTs : List Message → List Message
  | [] => []
  | x :: xs => insertByTs x (sortByTs xs)

/-- Lines 79-90 of the `POST /message` handler: resolve the conversation by
`c.id === convId` or create a fresh one with `generateId`, attributed to
`userId || 'anonymous'`.  Returns the conversation id in effect and the updated
`db.conversations`. -/
def resolveConv (db : DB) (conversationId : Option Int) (userId : Option String)
    (tsConv : Nat) : Int × List Conversation :=
  match conversationId.bind (fun cid => db.conversations.find? (fun c => c.id == cid)) with
  | some c => (c.id, db.conversations)
  | none =>
    let cid := generateId (db.conversations.map (fun c => c.id))
    (cid, db.conversations ++ [⟨cid, jsOr userId "anonymous", tsConv⟩])

/-- The message-push block of the `POST /message` handler (server.js lines
93-100 for the user turn and 120-127 for the assistant turn): build a row
with `generateId(db.messages)`, the conversation id, role, content and a
timestamp, and push it onto `db.messages`.  Returns the new row and the
updated store. -/
def appendMessage (db : DB) (convId : Int) (role content : String)
    (ts : Nat) : Message × DB :=
  let m : Message := ⟨generateId (db.messages.map (fun m => m.id)), convId, role, content, ts⟩
  (m, ⟨db.conversations, db.messages ++ [m]⟩)

/-- Result of the `POST /message` handler: HTTP status, the `success` flag,
the returned conversation id, reply and usage, and the store and disk after. -/
structure PostResult where
  status : Nat
  success : Bool
  conversationId : Option Int
  reply : Option String
  usage : Option Nat
  db : DB
  disk : Option DB
deriving DecidableEq

/-- The `POST /message` handler (server.js lines 68-146).  `message`,
`conversationId`, `userId` are the request-body fields (`none` = absent);
`tsConv`, `tsUser`, `tsAI` the three `new Date()` instants; `completion` the
outcome of the OpenAI call (`Except.error` covers a provider error or
timeout, caught by the surrounding try/catch as a 500).  Note the user message
is pushed into `db.messages` before the completion call, and `saveDB` runs
only on the success path. -/
def postMessage (db : DB) (disk : Option DB) (message : Option String)
    (conversationId : Option Int) (userId : Option String)
    (tsConv tsUser tsAI : Nat) (completion : Except String (String × Nat))
    (writeOk : Bool) : PostResult :=
  if message = none ∨ message = some "" then
    ⟨400, false, none, none, none, db, disk⟩
  else
    let msg := (message.getD "")
    let cc := resolveConv db conversationId userId tsConv
    let u := appendMessage ⟨cc.2, db.messages⟩ cc.1 "user" msg tsUser
    match completion with
    | Except.error _ =>
      ⟨500, false, none, none, none, u.2, disk⟩
    | Except.ok r =>
      let a := appendMessage u.2 cc.1 "assistant" r.1 tsAI
      ⟨200, true, some cc.1, some r.1, some r.2, a.2, saveDB a.2 writeOk disk⟩

/-- Result of the `GET /history/:conversationId` handler. -/
structure HistoryResult where
  status : Nat
  success : Bool
  messages : List Message
deriving DecidableEq

/-- The `GET /history/:conversationId` handler (server.js lines 149-175):
filter `db.messages` by `m.conversation_id === parseInt(param)`, sort by
timestamp ascending, and 404 when the filtered list is empty — the
`db.conversations` table is never consulted. -/
def getHistory (db : DB) (parsedId : Option Int) : HistoryResult :=
  let msgs := sortByTs (db.messages.filter (fun m => matchesParsed parsedId m.conversation_id))
  if msgs = [] then ⟨404, false, []⟩ else ⟨200, true, msgs⟩

/-- One element of the `GET /conversations` response (server.js lines 190-195). -/
structure Summary where
  id : Int
  created_at : Nat
  message_count : Nat
  last_message : Nat
deriving DecidableEq

/-- The per-conversation mapping of server.js lines 184-196: message count and
`last_message`, the timestamp of the last element of the filtered message
array (insertion order), falling back to `created_at` when there are none. -/
def summaryOf (db : DB) (c : Conversation) : Summary :=
  let convMessages := db.messages.filter (fun m => m.conversation_id == c.id)
  let lastMessage := match convMessages.getLast? with
    | some m => m.timestamp
    | none => c.created_at
  ⟨c.id, c.created_at, convMessages.length, lastMessage⟩

/-- Stable insertion (by `last_message` descending) matching the stable
`sort((a, b) => new Date(b.last_message) - new Date(a.last_message))` of
server.js line 197: an element is placed before the first element whose key is
not larger, so equal keys keep their original relative order. -/
def insertByLastDesc (s : Summary) : List Summary → List Summary
  | [] => [s]
  | x :: xs => if x.last_message ≤ s.last_message then s :: x :: xs else x :: insertByLastDesc s xs

/-- Stable sort of summaries by `last_message` descending. -/
def sortByLastDesc : List Summary → List Summary
  | [] => []
  | x :: xs => insertByLastDesc x (sortByLastDesc xs)

/-- The `GET /conversations` handler (server.js lines 178-210): filter to
`req.query.userId || 'anonymous'`, map to summaries, sort by `last_message`
descending with the stable array sort. -/
def listConversations (db : DB) (userIdQuery : Option String) : List Summary :=
  let userId := jsOr userIdQuery "anonymous"
  sortByLastDesc ((db.conversations.filter (fun c => c.user_id == userId)).map (summaryOf db))

/-- Result of the `DELETE /conversation/:id` handler. -/
structure DeleteResult where
  status : Nat
  success : Bool
  db : DB
  disk : Option DB
deriving DecidableEq

/-- The `DELETE /conversation/:id` handler (server.js lines 213-241):
`findIndex` + `splice(index, 1)` removes the first conversation whose id
`===`-matches the parsed parameter (modelled by `List.eraseP`, which erases
the first match; `findIndex === -1` is the no-match case), then every message
referencing the id is filtered out and the store is saved. -/
def deleteConversation (db : DB) (disk : Option DB) (parsedId : Option Int)
    (writeOk : Bool) : DeleteResult :=
  if db.conversations.any (fun c => matchesParsed parsedId c.id) then
    let db2 : DB := ⟨db.conversations.eraseP (fun c => matchesParsed parsedId c.id),
                     db.messages.filter (fun m => !(matchesParsed parsedId m.conversation_id))⟩
    ⟨200, true, db2, saveDB db2 writeOk disk⟩
  else
    ⟨404, false, db, disk⟩

/-! ### Helper lemmas: `generateId`, the stable sorts, erasure and filtering -/

theorem le_foldl_max_init (xs : List Int) (x : Int) : x ≤ xs.foldl max x := by
  induction xs generalizing x with
  | nil => exact le_refl x
  | cons y ys ih => exact le_trans (le_max_left x y) (ih (max x y))

theorem mem_le_foldl_max (xs : List Int) (x a : Int) (h : a ∈ xs) : a ≤ xs.foldl max x := by
  induction xs generalizing x with
  | nil => cases h
  | cons y ys ih =>
    rcases List.mem_cons.mp h with h1 | h2
    · subst h1
      exact le_trans (le_max_right x a) (le_foldl_max_init ys (max x a))
    · exact ih (max x y) h2

theorem lt_generateId (ids : List Int) (a : Int) (h : a ∈ ids) : a < generateId ids := by
  cases ids with
  | nil => cases h
  | cons x xs =>
    simp only [generateId]
    have hle : a ≤ xs.foldl max x := by
      rcases List.mem_cons.mp h with h1 | h2
      · subst h1; exact le_foldl_max_init xs a
      · exact mem_le_foldl_max xs x a h2
    omega

theorem insertByTs_ne_nil (m : Message) (l : List Message) : insertByTs m l ≠ [] := by
  cases l with
  | nil => simp [insertByTs]
  | cons x xs =>
    simp only [insertByTs]
    split <;> simp

theorem sortByTs_eq_nil_iff (l : List Message) : sortByTs l = [] ↔ l = [] := by
  cases l with
  | nil => simp [sortByTs]
  | cons x xs =>
    simp only [sortByTs]
    constructor
    · intro h; exact absurd h (insertByTs_ne_nil x (sortByTs xs))
    · intro h; exact absurd h (List.cons_ne_nil x xs)

theorem mem_insertByTs (y m : Message) (l : List Message) :
    y ∈ insertByTs m l ↔ y = m ∨ y ∈ l := by
  induction l with
  | nil => simp [insertByTs]
  | cons x xs ih =>
    simp only [insertByTs]
    split
    · simp [List.mem_cons]
    · simp only [List.mem_cons, ih]
      tauto

theorem mem_sortByTs (y : Message) (l : List Message) : y ∈ sortByTs l ↔ y ∈ l := by
  induction l with
  | nil => simp [sortByTs]
  | cons x xs ih =>
    simp only [sortByTs, mem_insertByTs, ih, List.mem_cons]

theorem insertByTs_append_last (x m : Message) (s : List Message)
    (h : x.timestamp ≤ m.timestamp) :
    insertByTs x (s ++ [m]) = insertByTs x s ++ [m] := by
  induction s with
  | nil => simp [insertByTs, h]
  | cons y ys ih =>
    by_cases hxy : x.timestamp ≤ y.timestamp
    · simp [insertByTs, hxy]
    · simp [insertByTs, hxy, ih]

theorem sortByTs_append_last (m : Message) (l : List Message)
    (h : ∀ x ∈ l, x.timestamp ≤ m.timestamp) :
    sortByTs (l ++ [m]) = sortByTs l ++ [m] := by
  induction l with
  | nil => simp [sortByTs, insertByTs]
  | cons x xs ih =>
    simp only [List.cons_append, sortByTs]
    show insertByTs x (sortByTs (xs ++ [m])) = insertByTs x (sortByTs xs) ++ [m]
    rw [ih (fun y hy => h y (List.mem_cons_of_mem x hy))]
    exact insertByTs_append_last x m (sortByTs xs) (h x (List.mem_cons_self x xs))

theorem insertByLastDesc_perm (s : Summary) (l : List Summary) :
    (insertByLastDesc s l).Perm (s :: l) := by
  induction l with
  | nil => simp [insertByLastDesc]
  | cons x xs ih =>
    simp only [insertByLastDesc]
    split
    · exact List.Perm.refl _
    · exact (ih.cons x).trans (List.Perm.swap s x xs)

theorem sortByLastDesc_perm (l : List Summary) : (sortByLastDesc l).Perm l := by
  induction l with
  | nil => simp [sortByLastDesc]
  | cons x xs ih =>
    exact (insertByLastDesc_perm x (sortByLastDesc xs)).trans (ih.cons x)

theorem mem_sortByLastDesc (s : Summary) (l : List Summary) :
    s ∈ sortByLastDesc l ↔ s ∈ l :=
  (sortByLastDesc_perm l).mem_iff

theorem chain'_insertByLastDesc (s : Summary) (l : List Summary)
    (h : List.Chain' (fun a b => b.last_message ≤ a.last_message) l) :
    List.Chain' (fun a b => b.last_message ≤ a.last_message) (insertByLastDesc s l) := by
  induction l with
  | nil => simp [insertByLastDesc]
  | cons x xs ih =>
    by_cases hx : x.last_message ≤ s.last_message
    · simp only [insertByLastDesc, if_pos hx]
      exact List.chain'_cons.mpr ⟨hx, h⟩
    · simp only [insertByLastDesc, if_neg hx]
      refine List.chain'_cons'.mpr ⟨?_, ih h.tail⟩
      intro y hy
      cases xs with
      | nil =>
        simp only [insertByLastDesc, List.head?_cons, Option.mem_def, Option.some.injEq] at hy
        subst hy
        omega
      | cons z zs =>
        by_cases hz : z.last_message ≤ s.last_message
        · simp only [insertByLastDesc, if_pos hz, List.head?_cons, Option.mem_def,
            Option.some.injEq] at hy
          subst hy
          omega
        · simp only [insertByLastDesc, if_neg hz, List.head?_cons, Option.mem_def,
            Option.some.injEq] at hy
          subst hy
          exact (List.chain'_cons.mp h).1

theorem chain'_sortByLastDesc (l : List Summary) :
    List.Chain' (fun a b => b.last_message ≤ a.last_message) (sortByLastDesc l) := by
  induction l with
  | nil => simp [sortByLastDesc]
  | cons x xs ih => exact chain'_insertByLastDesc x (sortByLastDesc xs) ih

theorem eraseP_conv_id_ne (cid : Int) (l : List Conversation)
    (hnd : (l.map (fun c => c.id)).Nodup) (c : Conversation)
    (hc : c ∈ l.eraseP (fun c => matchesParsed (some cid) c.id)) : c.id ≠ cid := by
  induction l with
  | nil => simp [List.eraseP] at hc
  | cons x xs ih =>
    rw [List.eraseP_cons] at hc
    by_cases hx : matchesParsed (some cid) x.id = true
    · simp only [hx, cond_true] at hc
      have hxid : cid = x.id := by simpa [matchesParsed] using hx
      have hnotin : x.id ∉ xs.map (fun c => c.id) := by
        simp only [List.map_cons, List.nodup_cons] at hnd
        exact hnd.1
      intro hcc
      have hmem : c.id ∈ xs.map (fun c => c.id) := List.mem_map_of_mem _ hc
      rw [hcc, hxid] at hmem
      exact hnotin hmem
    · rw [Bool.not_eq_true] at hx
      simp only [hx, cond_false] at hc
      rcases List.mem_cons.mp hc with h1 | h2
      · subst h1
        intro hcc
        simp [matchesParsed, hcc] at hx
      · refine ih ?_ h2
        simp only [List.map_cons, List.nodup_cons] at hnd
        exact hnd.2

theorem filter_after_filter_not (p : Message → Bool) (l : List Message) :
    (l.filter (fun m => !(p m))).filter p = [] := by
  induction l with
  | nil => rfl
  | cons x xs ih =>
    by_cases hx : p x = true
    · simp [List.filter_cons, hx, ih]
    · rw [Bool.not_eq_true] at hx
      simp [List.filter_cons, hx, ih]

/-! ### Claims -/

/-- C1 counterexample: in one store instance, two POST /message calls create
conversations 1 and 2, DELETE removes conversation 2, and the next
POST /message allocates id 2 again — `generateId` is max-of-current-ids + 1,
so the id of a deleted conversation is reassigned and the new id is not
strictly greater than every previously allocated id. -/
theorem C1_counterexample :
    let r1 := postMessage initialDB (some initialDB) (some "hi") none none 0 1 2
      (Except.ok ("a", 5)) true
    let r2 := postMessage r1.db r1.disk (some "yo") none none 3 4 5 (Except.ok ("b", 5)) true
    let r3 := deleteConversation r2.db r2.disk (some 2) true
    let r4 := postMessage r3.db r3.disk (some "again") none none 6 7 8 (Except.ok ("c", 5)) true
    r2.conversationId = some 2 ∧ r3.status = 200 ∧ r4.conversationId = some 2 := by
  decide

/-- C1 (amended): a conversation id allocated by `generateId` is strictly
greater than every conversation id currently present in the store — so ids
are strictly increasing as long as no conversation has been deleted, but
after deleting the conversation holding the largest id, that id can be
reassigned. -/
theorem C1_amended_fresh_id_exceeds_current (db : DB) (c : Conversation)
    (h : c ∈ db.conversations) :
    c.id < generateId (db.conversations.map (fun c => c.id)) :=
  lt_generateId _ c.id (List.mem_map_of_mem _ h)

/-- C1 witness: the amended theorem at a one-conversation store. -/
theorem C1_witness :
    ((⟨1, "anonymous", 0⟩ : Conversation) ∈ (DB.mk [⟨1, "anonymous", 0⟩] []).conversations) ∧
    (⟨1, "anonymous", 0⟩ : Conversation).id <
      generateId ((DB.mk [⟨1, "anonymous", 0⟩] []).conversations.map (fun c => c.id)) :=
  ⟨by decide, C1_amended_fresh_id_exceeds_current (DB.mk [⟨1, "anonymous", 0⟩] [])
    ⟨1, "anonymous", 0⟩ (by decide)⟩

/-- C2 counterexample: a store holding conversation 1 with zero messages —
the history lookup returns 404 ConversationNotFound even though the
conversation exists, instead of an empty sequence with success. -/
theorem C2_counterexample :
    (DB.mk [⟨1, "anonymous", 0⟩] []).conversations.any (fun c => c.id == 1) = true ∧
    getHistory (DB.mk [⟨1, "anonymous", 0⟩] []) (some 1) = ⟨404, false, []⟩ := by
  decide

/-- C2 (amended): GET /history returns 404 exactly when no stored message
matches the requested conversation id — including when the conversation
itself exists with zero messages; the conversations table is never
consulted. -/
theorem C2_amended_history_404_iff_no_matching_messages (db : DB) (pid : Option Int) :
    (getHistory db pid).status = 404 ↔
      db.messages.filter (fun m => matchesParsed pid m.conversation_id) = [] := by
  by_cases h : sortByTs (db.messages.filter (fun m => matchesParsed pid m.conversation_id)) = []
  · simp only [getHistory, if_pos h]
    constructor
    · intro _; exact (sortByTs_eq_nil_iff _).mp h
    · intro _; trivial
  · simp only [getHistory, if_neg h]
    constructor
    · intro h2; simp at h2
    · intro hf
      exact absurd (by rw [hf]; rfl) h

/-- C3 counterexample: a POST /message for which the persistence write fails
(`writeOk = false`) still returns 200 with `success = true`; the in-memory
state changed but the disk did not, and no error reaches the caller. -/
theorem C3_counterexample :
    let r := postMessage initialDB (some initialDB) (some "hi") none none 0 1 2
      (Except.ok ("a", 5)) false
    r.status = 200 ∧ r.success = true ∧ r.db.messages ≠ [] ∧ r.disk = some initialDB := by
  decide

/-- C3 (amended): `saveDB` catches a write error and only logs it, so the
response of POST /message and of DELETE /conversation — status, success flag
and resulting in-memory store — is identical whether or not the storage write
succeeds: a write failure is always swallowed, never surfaced. -/
theorem C3_amended_write_failure_not_surfaced (db : DB) (disk : Option DB)
    (message : Option String) (cid : Option Int) (uid : Option String)
    (t1 t2 t3 : Nat) (comp : Except String (String × Nat)) (pid : Option Int) (w : Bool) :
    ((postMessage db disk message cid uid t1 t2 t3 comp w).status =
        (postMessage db disk message cid uid t1 t2 t3 comp true).status ∧
      (postMessage db disk message cid uid t1 t2 t3 comp w).success =
        (postMessage db disk message cid uid t1 t2 t3 comp true).success ∧
      (postMessage db disk message cid uid t1 t2 t3 comp w).db =
        (postMessage db disk message cid uid t1 t2 t3 comp true).db) ∧
    ((deleteConversation db disk pid w).status = (deleteConversation db disk pid true).status ∧
      (deleteConversation db disk pid w).success =
        (deleteConversation db disk pid true).success ∧
      (deleteConversation db disk pid w).db = (deleteConversation db disk pid true).db) := by
  constructor
  · simp only [postMessage]
    split
    · exact ⟨rfl, rfl, rfl⟩
    · cases comp <;> exact ⟨rfl, rfl, rfl⟩
  · simp only [deleteConversation]
    split <;> exact ⟨rfl, rfl, rfl⟩

/-- C6: a POST /message whose message text is missing or empty fails with
status 400 and leaves the store and the disk completely unchanged. -/
theorem C6_empty_message_rejected_no_state_change (db : DB) (disk : Option DB)
    (msg : Option String) (cid : Option Int) (uid : Option String) (t1 t2 t3 : Nat)
    (comp : Except String (String × Nat)) (w : Bool)
    (h : msg = none ∨ msg = some "") :
    postMessage db disk msg cid uid t1 t2 t3 comp w =
      ⟨400, false, none, none, none, db, disk⟩ := by
  simp only [postMessage, if_pos h]

/-- C6 witness: the theorem at the empty-string message. -/
theorem C6_witness :
    ((some "" : Option String) = none ∨ (some "" : Option String) = some "") ∧
    postMessage initialDB none (some "") none none 0 0 0 (Except.ok ("a", 1)) true =
      ⟨400, false, none, none, none, initialDB, none⟩ :=
  ⟨Or.inr rfl, C6_empty_message_rejected_no_state_change initialDB none (some "") none none
    0 0 0 (Except.ok ("a", 1)) true (Or.inr rfl)⟩

/-- C8: when the snapshot file is corrupt or unreadable at startup, `loadDB`
does not fail: the store falls back to the empty state and re-persists it. -/
theorem C8_corrupt_snapshot_falls_back_empty (e : String) (disk : Option DB) :
    loadDB (some (Except.error e)) true disk = (initialDB, some initialDB) ∧
    initialDB.conversations = [] ∧ initialDB.messages = [] :=
  ⟨rfl, rfl, rfl⟩

/-- C10: a GET /history whose path parameter does not parse as an integer
(`parseInt` yields NaN, modelled as `none`, which `===`-matches no stored
conversation id) returns the 404 outcome for every store state, not a crash
or a 500. -/
theorem C10_non_integer_history_param_404 (db : DB) :
    getHistory db none = ⟨404, false, []⟩ := by
  have h : db.messages.filter (fun m => matchesParsed none m.conversation_id) = [] := by
    simp [matchesParsed]
  simp [getHistory, h, sortByTs]

/-- C4: appending a non-empty message to an existing conversation whose
stored messages do not postdate the append instant (the clock reads are
monotone in the running server), then listing that conversation's history,
yields the appended message as the last element of the returned order. -/
theorem C4_append_then_list_yields_last (db : DB) (cid : Int) (role content : String)
    (ts : Nat)
    (hex : db.conversations.any (fun c => c.id == cid) = true)
    (hne : content ≠ "")
    (hts : ∀ m ∈ db.messages, m.conversation_id = cid → m.timestamp ≤ ts) :
    ((getHistory (appendMessage db cid role content ts).2 (some cid)).messages).getLast? =
      some (appendMessage db cid role content ts).1 := by
  have hmts : ((appendMessage db cid role content ts).1).timestamp = ts := rfl
  have key : (appendMessage db cid role content ts).2.messages.filter
      (fun x => matchesParsed (some cid) x.conversation_id)
      = db.messages.filter (fun x => matchesParsed (some cid) x.conversation_id) ++
        [(appendMessage db cid role content ts).1] := by
    show (db.messages ++ [(appendMessage db cid role content ts).1]).filter _ = _
    rw [List.filter_append]
    simp [matchesParsed, appendMessage]
  have hsorted : sortByTs ((appendMessage db cid role content ts).2.messages.filter
      (fun x => matchesParsed (some cid) x.conversation_id))
      = sortByTs (db.messages.filter (fun x => matchesParsed (some cid) x.conversation_id)) ++
        [(appendMessage db cid role content ts).1] := by
    rw [key]
    refine sortByTs_append_last _ _ (fun x hx => ?_)
    have hx1 := List.mem_of_mem_filter hx
    have hx2 := List.of_mem_filter hx
    have hxc : x.conversation_id = cid := by
      have h3 : cid = x.conversation_id := by simpa [matchesParsed] using hx2
      exact h3.symm
    rw [hmts]
    exact hts x hx1 hxc
  have hnenil : sortByTs (db.messages.filter
      (fun x => matchesParsed (some cid) x.conversation_id)) ++
      [(appendMessage db cid role content ts).1] ≠ [] := by simp
  simp only [getHistory, hsorted]
  rw [if_neg hnenil]
  exact List.getLast?_concat _

/-- C4 witness: the theorem at a one-conversation store with one earlier
message. -/
theorem C4_witness :
    ((DB.mk [⟨1, "anonymous", 0⟩] [⟨1, 1, "user", "x", 0⟩]).conversations.any
        (fun c => c.id == 1) = true) ∧
    ("hello" ≠ "") ∧
    (∀ m ∈ (DB.mk [⟨1, "anonymous", 0⟩] [⟨1, 1, "user", "x", 0⟩]).messages,
        m.conversation_id = 1 → m.timestamp ≤ 5) ∧
    ((getHistory (appendMessage (DB.mk [⟨1, "anonymous", 0⟩] [⟨1, 1, "user", "x", 0⟩]) 1 "user"
        "hello" 5).2 (some 1)).messages).getLast? =
      some (appendMessage (DB.mk [⟨1, "anonymous", 0⟩] [⟨1, 1, "user", "x", 0⟩]) 1 "user"
        "hello" 5).1 :=
  ⟨by decide, by decide, by decide,
    C4_append_then_list_yields_last _ 1 "user" "hello" 5 (by decide) (by decide) (by decide)⟩

/-- C5: deleting an existing conversation (in a store whose conversation ids
are pairwise distinct, as the data model requires) succeeds and removes, in
the one returned store, the conversation and every message referencing it:
afterwards no conversation or message carries the id, the history lookup
reports 404, and the id appears in no listConversations output. -/
theorem C5_delete_removes_conversation_and_messages (db : DB) (disk : Option DB)
    (cid : Int) (w : Bool) (uidq : Option String)
    (hnd : (db.conversations.map (fun c => c.id)).Nodup)
    (hex : db.conversations.any (fun c => matchesParsed (some cid) c.id) = true) :
    (deleteConversation db disk (some cid) w).status = 200 ∧
    (deleteConversation db disk (some cid) w).success = true ∧
    (∀ c ∈ (deleteConversation db disk (some cid) w).db.conversations, c.id ≠ cid) ∧
    (∀ m ∈ (deleteConversation db disk (some cid) w).db.messages, m.conversation_id ≠ cid) ∧
    (getHistory (deleteConversation db disk (some cid) w).db (some cid)).status = 404 ∧
    (∀ s ∈ listConversations (deleteConversation db disk (some cid) w).db uidq,
      s.id ≠ cid) := by
  have hdb : (deleteConversation db disk (some cid) w).db =
      ⟨db.conversations.eraseP (fun c => matchesParsed (some cid) c.id),
        db.messages.filter (fun m => !(matchesParsed (some cid) m.conversation_id))⟩ := by
    simp [deleteConversation, hex]
  refine ⟨by simp [deleteConversation, hex], by simp [deleteConversation, hex], ?_, ?_, ?_, ?_⟩
  · intro c hc
    rw [hdb] at hc
    exact eraseP_conv_id_ne cid db.conversations hnd c hc
  · intro m hm
    rw [hdb] at hm
    have h2 := List.of_mem_filter hm
    intro hcc
    simp [matchesParsed, hcc] at h2
  · rw [hdb]
    have hf := filter_after_filter_not
      (fun m => matchesParsed (some cid) m.conversation_id) db.messages
    simp [getHistory, hf, sortByTs]
  · intro s hs
    rw [hdb] at hs
    simp only [listConversations, mem_sortByLastDesc] at hs
    obtain ⟨c, hcf, hcs⟩ := List.mem_map.mp hs
    have hcmem := List.mem_of_mem_filter hcf
    have hne2 : c.id ≠ cid := eraseP_conv_id_ne cid db.conversations hnd c hcmem
    rw [← hcs]
    simpa [summaryOf] using hne2

/-- C5 witness: the theorem at a store with one conversation and one
message. -/
theorem C5_witness :
    (((DB.mk [⟨1, "anonymous", 0⟩] [⟨1, 1, "user", "x", 2⟩]).conversations.map
        (fun c => c.id)).Nodup ∧
      (DB.mk [⟨1, "anonymous", 0⟩] [⟨1, 1, "user", "x", 2⟩]).conversations.any
        (fun c => matchesParsed (some 1) c.id) = true) ∧
    ((deleteConversation (DB.mk [⟨1, "anonymous", 0⟩] [⟨1, 1, "user", "x", 2⟩]) none
        (some 1) true).status = 200 ∧
      (deleteConversation (DB.mk [⟨1, "anonymous", 0⟩] [⟨1, 1, "user", "x", 2⟩]) none
        (some 1) true).success = true ∧
      (∀ c ∈ (deleteConversation (DB.mk [⟨1, "anonymous", 0⟩] [⟨1, 1, "user", "x", 2⟩]) none
        (some 1) true).db.conversations, c.id ≠ 1) ∧
      (∀ m ∈ (deleteConversation (DB.mk [⟨1, "anonymous", 0⟩] [⟨1, 1, "user", "x", 2⟩]) none
        (some 1) true).db.messages, m.conversation_id ≠ 1) ∧
      (getHistory (deleteConversation (DB.mk [⟨1, "anonymous", 0⟩] [⟨1, 1, "user", "x", 2⟩])
        none (some 1) true).db (some 1)).status = 404 ∧
      (∀ s ∈ listConversations (deleteConversation (DB.mk [⟨1, "anonymous", 0⟩]
        [⟨1, 1, "user", "x", 2⟩]) none (some 1) true).db none, s.id ≠ 1)) :=
  ⟨⟨by decide, by decide⟩,
    C5_delete_removes_conversation_and_messages _ none 1 true none (by decide) (by decide)⟩

/-- C7: when the completion provider fails after the user message is
appended, POST /message returns a 500 failure, exactly the user turn was
added to the store (no assistant turn for this request), and that user turn
is visible in the conversation's history. -/
theorem C7_completion_failure_preserves_user_turn (db : DB) (disk : Option DB) (t : String)
    (cid : Option Int) (uid : Option String) (t1 t2 t3 : Nat) (e : String) (w : Bool)
    (ht : t ≠ "") :
    (postMessage db disk (some t) cid uid t1 t2 t3 (Except.error e) w).status = 500 ∧
    (postMessage db disk (some t) cid uid t1 t2 t3 (Except.error e) w).success = false ∧
    (postMessage db disk (some t) cid uid t1 t2 t3 (Except.error e) w).db.messages =
      db.messages ++
        [(appendMessage ⟨(resolveConv db cid uid t1).2, db.messages⟩
          (resolveConv db cid uid t1).1 "user" t t2).1] ∧
    ((appendMessage ⟨(resolveConv db cid uid t1).2, db.messages⟩
        (resolveConv db cid uid t1).1 "user" t t2).1).role = "user" ∧
    ((appendMessage ⟨(resolveConv db cid uid t1).2, db.messages⟩
        (resolveConv db cid uid t1).1 "user" t t2).1).content = t ∧
    (appendMessage ⟨(resolveConv db cid uid t1).2, db.messages⟩
        (resolveConv db cid uid t1).1 "user" t t2).1 ∈
      (getHistory (postMessage db disk (some t) cid uid t1 t2 t3 (Except.error e) w).db
        (some (resolveConv db cid uid t1).1)).messages := by
  have hcond : ¬(some t = none ∨ some t = some "") := by
    rintro (h | h)
    · exact Option.noConfusion h
    · exact ht (by injection h)
  have hpost : postMessage db disk (some t) cid uid t1 t2 t3 (Except.error e) w =
      ⟨500, false, none, none, none,
        (appendMessage ⟨(resolveConv db cid uid t1).2, db.messages⟩
          (resolveConv db cid uid t1).1 "user" t t2).2, disk⟩ := by
    simp only [postMessage, if_neg hcond, Option.getD_some]
  have hmem0 : (appendMessage ⟨(resolveConv db cid uid t1).2, db.messages⟩
      (resolveConv db cid uid t1).1 "user" t t2).1 ∈
      (postMessage db disk (some t) cid uid t1 t2 t3 (Except.error e) w).db.messages := by
    rw [hpost]
    show (appendMessage ⟨(resolveConv db cid uid t1).2, db.messages⟩
      (resolveConv db cid uid t1).1 "user" t t2).1 ∈ db.messages ++
        [(appendMessage ⟨(resolveConv db cid uid t1).2, db.messages⟩
          (resolveConv db cid uid t1).1 "user" t t2).1]
    exact List.mem_append_right _ (List.mem_singleton_self _)
  have hfmem : (appendMessage ⟨(resolveConv db cid uid t1).2, db.messages⟩
      (resolveConv db cid uid t1).1 "user" t t2).1 ∈
      (postMessage db disk (some t) cid uid t1 t2 t3 (Except.error e) w).db.messages.filter
        (fun x => matchesParsed (some (resolveConv db cid uid t1).1) x.conversation_id) :=
    List.mem_filter.mpr ⟨hmem0, by simp [matchesParsed, appendMessage]⟩
  have hsmem := (mem_sortByTs _ _).mpr hfmem
  have hnenil := List.ne_nil_of_mem hsmem
  refine ⟨by rw [hpost], by rw [hpost], by rw [hpost]; rfl, rfl, rfl, ?_⟩
  simp only [getHistory, if_neg hnenil]
  exact hsmem

/-- C7 witness: the theorem at an empty store and the message "hi". -/
theorem C7_witness :
    ("hi" ≠ "") ∧
    ((postMessage initialDB none (some "hi") none none 0 1 2 (Except.error "boom") true).status
        = 500 ∧
      (postMessage initialDB none (some "hi") none none 0 1 2
        (Except.error "boom") true).success = false ∧
      (postMessage initialDB none (some "hi") none none 0 1 2
          (Except.error "boom") true).db.messages =
        initialDB.messages ++
          [(appendMessage ⟨(resolveConv initialDB none none 0).2, initialDB.messages⟩
            (resolveConv initialDB none none 0).1 "user" "hi" 1).1] ∧
      ((appendMessage ⟨(resolveConv initialDB none none 0).2, initialDB.messages⟩
          (resolveConv initialDB none none 0).1 "user" "hi" 1).1).role = "user" ∧
      ((appendMessage ⟨(resolveConv initialDB none none 0).2, initialDB.messages⟩
          (resolveConv initialDB none none 0).1 "user" "hi" 1).1).content = "hi" ∧
      (appendMessage ⟨(resolveConv initialDB none none 0).2, initialDB.messages⟩
          (resolveConv initialDB none none 0).1 "user" "hi" 1).1 ∈
        (getHistory (postMessage initialDB none (some "hi") none none 0 1 2
          (Except.error "boom") true).db
          (some (resolveConv initialDB none none 0).1)).messages) :=
  ⟨by decide, C7_completion_failure_preserves_user_turn initialDB none "hi" none none 0 1 2
    "boom" true (by decide)⟩

/-- C9 counterexample: two reachable stores holding the same two
conversations (owner "anonymous", equal timestamps, no messages) in opposite
array orders — both loadable from a snapshot file — produce opposite tie
orders [1, 2] and [2, 1]: the tie-break is the stored array order (the sort
is stable), not a function of the conversation ids. -/
theorem C9_counterexample :
    (listConversations (DB.mk [⟨1, "anonymous", 5⟩, ⟨2, "anonymous", 5⟩] []) none).map
        (fun s => s.id) = [1, 2] ∧
    (listConversations (DB.mk [⟨2, "anonymous", 5⟩, ⟨1, "anonymous", 5⟩] []) none).map
        (fun s => s.id) = [2, 1] ∧
    (DB.mk [⟨1, "anonymous", 5⟩, ⟨2, "anonymous", 5⟩] []).conversations.Perm
      (DB.mk [⟨2, "anonymous", 5⟩, ⟨1, "anonymous", 5⟩] []).conversations := by
  decide

/-- C9 (amended): listConversations returns exactly the requested owner's
conversations (owner defaulting to "anonymous"), each summarised with its
message count and a last_message falling back to created_at when it has no
messages, sorted by last_message descending; ties are broken by the stable
sort in stored array order (which is ascending id order for conversations
created within the running instance), not intrinsically by conversation
id. -/
theorem C9_amended_owner_filter_sorted_desc (db : DB) (uidq : Option String) :
    (listConversations db uidq).Perm
      ((db.conversations.filter (fun c => c.user_id == jsOr uidq "anonymous")).map
        (summaryOf db)) ∧
    List.Chain' (fun a b => b.last_message ≤ a.last_message) (listConversations db uidq) ∧
    (∀ c : Conversation, db.messages.filter (fun m => m.conversation_id == c.id) = [] →
      (summaryOf db c).last_message = c.created_at) := by
  refine ⟨?_, ?_, ?_⟩
  · simp only [listConversations]
    exact sortByLastDesc_perm _
  · simp only [listConversations]
    exact chain'_sortByLastDesc _
  · intro c h
    simp [summaryOf, h]

/-- C9 witness: the amended theorem at a one-conversation store. -/
theorem C9_witness :
    (listConversations (DB.mk [⟨1, "anonymous", 5⟩] []) none).Perm
      (((DB.mk [⟨1, "anonymous", 5⟩] []).conversations.filter
        (fun c => c.user_id == jsOr none "anonymous")).map
        (summaryOf (DB.mk [⟨1, "anonymous", 5⟩] []))) ∧
    List.Chain' (fun a b => b.last_message ≤ a.last_message)
      (listConversations (DB.mk [⟨1, "anonymous", 5⟩] []) none) ∧
    (∀ c : Conversation,
      (DB.mk [⟨1, "anonymous", 5⟩] []).messages.filter
        (fun m => m.conversation_id == c.id) = [] →
      (summaryOf (DB.mk [⟨1, "anonymous", 5⟩] []) c).last_message = c.created_at) :=
  C9_amended_owner_filter_sorted_desc (DB.mk [⟨1, "anonymous", 5⟩] []) none

end Server
